import Mathlib

/-!
Verification of the conjecture-prove bootstrapping loop of gc-minimo
(src/learning/bootstrap.py), shallowly embedded in Lean 4.

Modelling conventions:
  - Python floats become rationals; numpy percentile (default linear
    interpolation) and numpy mean are embedded exactly over the rationals.
  - The external prover (worker.try_prove) is an oracle: each call of
    prove_conjectures receives the raw worker outputs, one per submitted
    conjecture and in submission order, as an input list.
  - The symbolic engine operations d.contract and d.elaborate are opaque
    string functions passed as parameters.
  - A result with a falsy error payload is modelled by the empty string.
  - File writes (examples_i.json, val_goals_proofs_i.json,
    final_goals_proofs.json, model.pt, model_info.yaml) are recorded as
    fields of the loop state.
-/

namespace GcMinimo

/-- Label assigned to unsuccessful proof attempts (bootstrap.py line 32). -/
def FAIL : String := "fail"

/-- One extracted sub-training example: a dict with a str entry in the
source (bootstrap.py lines 138, 157). -/
structure ExtractedExample where
  str : String
  deriving DecidableEq, Repr

/-- An element of the heterogeneous Python examples list built during
curation: either a tagged conjecture string, an extracted-example dict, or
an opaque payload coming from a hindsight example. -/
inductive TrainingExample where
  | tag (s : String) : TrainingExample
  | extracted (e : ExtractedExample) : TrainingExample
  | payload (s : String) : TrainingExample
  deriving DecidableEq, Repr

/-- HindsightExample as consumed by the loop (bootstrap.py lines 245-254):
a goal string, a log-probability, and a list of training examples. -/
structure HindsightExample where
  goal : String
  logprob : ℚ
  examples : List TrainingExample
  deriving DecidableEq, Repr

/-- StudentResult as consumed by the loop: the fields of the worker result
that bootstrap.py reads. -/
structure StudentResult where
  problem : String
  success : Bool
  logprob : ℚ
  proof : String
  extracted_examples : List ExtractedExample
  hindsight_examples : List HindsightExample
  error : String
  deriving DecidableEq, Repr

/-- The configuration fields of cfg that the loop body reads. -/
structure Config where
  difficulty_buckets : List (String × ℚ)
  n_conjectures : ℕ
  freeze_conjecturer : Bool
  train_policy_on_hindsight_examples : Bool
  total_iterations : ℕ
  deriving DecidableEq, Repr

/-- An entry of final_goals_proofs.json or val_goals_proofs_i.json:
a dict with a theorem statement and proof lines (bootstrap.py 137-139). -/
structure FinalEntry where
  thm : String
  proof : List String
  deriving DecidableEq, Repr

/-- numpy.percentile with the default linear interpolation, over ℚ:
sort the data ascending, take position p/100 * (n-1) and linearly
interpolate between the two neighbouring order statistics.  The source
never calls it on an empty list (guarded at bootstrap.py line 206);
the empty case returns 0 here. -/
def percentile (xs : List ℚ) (p : ℚ) : ℚ :=
  let s := xs.insertionSort (· ≤ ·)
  if s.length = 0 then 0
  else
    let pos : ℚ := p * ((s.length : ℚ) - 1) / 100
    let k : ℕ := (⌊pos⌋).toNat
    let a := s.getD k 0
    let b := s.getD (k + 1) a
    a + (pos - (k : ℚ)) * (b - a)

/-- numpy.mean over ℚ. -/
def mean (xs : List ℚ) : ℚ := xs.sum / (xs.length : ℚ)

/-- The sorted bucket list (bootstrap.py lines 89-91): the configured
(label, percentile) pairs sorted ascending by percentile (Python sorted is
stable; insertionSort is stable as well). -/
def sortBuckets (bs : List (String × ℚ)) : List (String × ℚ) :=
  bs.insertionSort (fun a b => a.2 ≤ b.2)

/-- The classification generator (bootstrap.py lines 228-231 and 247-249):
walk the sorted buckets and their thresholds in lockstep and return the
first label whose threshold is at least the logprob, or the last label.
Python raises StopIteration or IndexError when the bucket list is empty or
the threshold list is shorter; those cases return none. -/
def classifyFrom : List (String × ℚ) → List ℚ → ℚ → Option String
  | [], _, _ => none
  | (k, _) :: rest, t :: ts, lp =>
      if lp ≤ t ∨ rest = [] then some k else classifyFrom rest ts lp
  | _ :: _, [], _ => none

/-- Outcome of one student result (bootstrap.py lines 227-233): classify
the logprob on success, FAIL otherwise.  getD covers the un-reachable
exceptional none case. -/
def resultOutcome (buckets : List (String × ℚ)) (ths : List ℚ)
    (r : StudentResult) : String :=
  if r.success then (classifyFrom buckets ths r.logprob).getD "" else FAIL

/-- prove_conjectures result collection (bootstrap.py lines 290-303):
walk the raw worker results in submission order, drop any result whose
error payload is truthy, keep the rest. -/
def prove_conjectures : List StudentResult → List StudentResult
  | [] => []
  | r :: rs =>
      if r.error ≠ "" then prove_conjectures rs
      else r :: prove_conjectures rs

/-- get_log_probs (bootstrap.py lines 306-314): the logprobs of the
successful results, in order. -/
def get_log_probs : List StudentResult → List ℚ
  | [] => []
  | r :: rs =>
      if r.success then r.logprob :: get_log_probs rs else get_log_probs rs

/-- The conjecture sampling loop (bootstrap.py lines 168-177).  The
stream of proposals drawn from the policy is an input list (the empty
string models a falsy proposal); the loop stops when n conjectures are
accepted.  A proposal is accepted if it is new with respect to the batch
and the proven set, and its contraction is as well; the contraction is
what gets appended.  The source loop blocks forever if the policy stops
producing fresh proposals; with a finite stream we return the partial
batch instead. -/
def sampleConjectures (contract : String → String) (proven : List String)
    (n : ℕ) : List String → List String → List String
  | [], conjectures => conjectures
  | p :: rest, conjectures =>
    if n ≤ conjectures.length then conjectures
    else if p ≠ "" ∧ p ∉ conjectures ++ proven then
      let c := contract p
      if c ∉ conjectures ++ proven then
        sampleConjectures contract proven n rest (conjectures ++ [c])
      else
        sampleConjectures contract proven n rest conjectures
    else
      sampleConjectures contract proven n rest conjectures

/-- The mutable accumulators threaded through curation (bootstrap.py
lines 195, 225-254), plus an event log recording the goal of every
hindsight example whose training data is appended (the body of the branch
at lines 246-254 runs exactly once per recorded entry). -/
structure CurationAcc where
  examples : List TrainingExample
  proven_conjectures : List String
  proofs : List String
  seen_hindsight_goals : List String
  hindsightLog : List String
  deriving DecidableEq, Repr

/-- Processing of one hindsight example h inside the result loop
(bootstrap.py lines 245-254): if the goal is unseen, classify h.logprob,
optionally append the tagged conjecture built from the elaborated problem
of the enclosing result, append the examples of h and mark the goal
seen. -/
def hindsightStep (cfg : Config) (elaborate : String → String)
    (buckets : List (String × ℚ)) (ths : List ℚ) (problem : String)
    (acc : CurationAcc) (h : HindsightExample) : CurationAcc :=
  if h.goal ∈ acc.seen_hindsight_goals then acc
  else
    let outcome := (classifyFrom buckets ths h.logprob).getD ""
    let ex1 :=
      if cfg.freeze_conjecturer then acc.examples
      else acc.examples ++
        [TrainingExample.tag ("Conj:(" ++ outcome ++ ") " ++ elaborate problem)]
    { acc with
      examples := ex1 ++ h.examples
      seen_hindsight_goals := acc.seen_hindsight_goals ++ [h.goal]
      hindsightLog := acc.hindsightLog ++ [h.goal] }

/-- Processing of one student result in the curation loop (bootstrap.py
lines 225-254): classify, optionally append the tagged conjecture, record
proofs of successes, append the extracted examples, then process the
hindsight examples when enabled. -/
def curateResult (cfg : Config) (elaborate : String → String)
    (buckets : List (String × ℚ)) (ths : List ℚ)
    (acc : CurationAcc) (r : StudentResult) : CurationAcc :=
  let outcome := resultOutcome buckets ths r
  let acc1 :=
    if cfg.freeze_conjecturer then acc
    else { acc with
      examples := acc.examples ++
        [TrainingExample.tag ("Conj:(" ++ outcome ++ ") " ++ elaborate r.problem)] }
  let acc2 :=
    if r.success then
      { acc1 with
        proven_conjectures := acc1.proven_conjectures ++ [r.problem]
        proofs := acc1.proofs ++ [r.proof] }
    else acc1
  let acc3 :=
    { acc2 with
      examples := acc2.examples ++ r.extracted_examples.map TrainingExample.extracted }
  if cfg.train_policy_on_hindsight_examples then
    r.hindsight_examples.foldl (hindsightStep cfg elaborate buckets ths r.problem) acc3
  else acc3

/-- The loop state living across iterations of teacher_loop: the
accumulators initialised at bootstrap.py lines 97-100 and the artifacts
which the loop writes (files and the model checkpoint), recorded as state
fields. -/
structure LoopState where
  proven_conjectures : List String
  seen_hindsight_goals : List String
  proofs : List String
  model_info : Option ℕ
  agentSavedAt : Option ℕ
  examplesFiles : List (ℕ × List TrainingExample)
  valProofsFiles : List (ℕ × List FinalEntry)
  finalProofsFile : Option (List FinalEntry)
  hindsightLog : List String
  deriving DecidableEq, Repr

/-- The state at the start of a fresh run (bootstrap.py lines 97-100):
empty accumulators, empty model_info dict, no files written. -/
def initState : LoopState :=
  { proven_conjectures := []
    seen_hindsight_goals := []
    proofs := []
    model_info := none
    agentSavedAt := none
    examplesFiles := []
    valProofsFiles := []
    finalProofsFile := none
    hindsightLog := [] }

/-- The oracle inputs consumed by one iteration: the raw worker outputs
for the final-goal, validation and sampled-batch submissions (one entry
per submitted conjecture, in submission order) and the stream of raw
proposals drawn by the conjecture sampler. -/
structure IterInput where
  finalRaw : List StudentResult
  valRaw : List StudentResult
  proposals : List String
  batchRaw : List StudentResult
  deriving DecidableEq, Repr

/-- How the iteration body exited: break at the termination gate, continue
at the zero-success guard, or fall through to checkpointing. -/
inductive IterStatus where
  | terminated : IterStatus
  | skipped : IterStatus
  | completed : IterStatus
  deriving DecidableEq, Repr

/-- The outcome of one iteration of the loop body: the updated state plus
observable per-iteration facts (sampled batch, thresholds computed, whether
training ran, whether the no-solutions warning fired, the reported
mean-hard-logprob metric). -/
structure IterResult where
  state : LoopState
  status : IterStatus
  conjectures : List String
  thresholdsUsed : Option (List ℚ)
  didTrain : Bool
  warnedNoSolutions : Bool
  meanHardSolLogProb : Option ℚ
  deriving DecidableEq, Repr

/-- One iteration of the body of teacher_loop (bootstrap.py lines
120-278) at index i.  Mirrors the source order: evaluate the final goals
and break when all are proven (writing final_goals_proofs.json); evaluate
the validation goals and write their proof file; sample a batch of
conjectures; prove them; continue on zero successes; otherwise merge in
the final-goal results, compute percentile thresholds from the sampled
batch successes, compute the hard-solution metric, curate, write
examples_i.json, save the model and record the iteration in
model_info. -/
def runIteration (cfg : Config) (contract elaborate : String → String)
    (final_goals_formatted : List String) (i : ℕ) (st : LoopState)
    (input : IterInput) : IterResult :=
  let final_goals := final_goals_formatted.map (fun g => "Conj:(hard) " ++ g)
  let student_results_final := prove_conjectures input.finalRaw
  let success_logprobs_final := get_log_probs student_results_final
  if success_logprobs_final.length = final_goals.length then
    let final_results := student_results_final.map
      (fun srf => FinalEntry.mk srf.problem (srf.extracted_examples.map (fun l => l.str)))
    { state := { st with finalProofsFile := some final_results }
      status := IterStatus.terminated
      conjectures := []
      thresholdsUsed := none
      didTrain := false
      warnedNoSolutions := false
      meanHardSolLogProb := none }
  else
    let student_results_val := prove_conjectures input.valRaw
    let val_results := student_results_val.map
      (fun srv => FinalEntry.mk srv.problem (srv.extracted_examples.map (fun l => l.str)))
    let st1 := { st with valProofsFiles := st.valProofsFiles ++ [(i, val_results)] }
    let conjectures :=
      sampleConjectures contract st1.proven_conjectures cfg.n_conjectures input.proposals []
    let student_results := prove_conjectures input.batchRaw
    let success_logprobs := get_log_probs student_results
    if success_logprobs = [] then
      { state := st1
        status := IterStatus.skipped
        conjectures := conjectures
        thresholdsUsed := none
        didTrain := false
        warnedNoSolutions := true
        meanHardSolLogProb := none }
    else
      let merged := student_results ++ student_results_final
      let buckets := sortBuckets cfg.difficulty_buckets
      let ths := buckets.map (fun kv => percentile success_logprobs kv.2)
      let hard_sol_log_probs := success_logprobs.filter (fun lp => ths.headD 0 ≤ lp)
      let mean_hard := if hard_sol_log_probs ≠ [] then mean hard_sol_log_probs else 0
      let cur0 : CurationAcc :=
        { examples := []
          proven_conjectures := st1.proven_conjectures
          proofs := st1.proofs
          seen_hindsight_goals := st1.seen_hindsight_goals
          hindsightLog := st1.hindsightLog }
      let cur := merged.foldl (curateResult cfg elaborate buckets ths) cur0
      let st2 :=
        { st1 with
          proven_conjectures := cur.proven_conjectures
          proofs := cur.proofs
          seen_hindsight_goals := cur.seen_hindsight_goals
          hindsightLog := cur.hindsightLog
          examplesFiles := st1.examplesFiles ++ [(i, cur.examples)]
          agentSavedAt := some i
          model_info := some i }
      { state := st2
        status := IterStatus.completed
        conjectures := conjectures
        thresholdsUsed := some ths
        didTrain := i + 1 < cfg.total_iterations
        warnedNoSolutions := false
        meanHardSolLogProb := some mean_hard }

/-- The for-loop of teacher_loop from iteration index i (bootstrap.py line
120): run iterations while i is below the configured budget, stopping
early when an iteration hits the termination gate.  The list of oracle
inputs supplies one entry per remaining iteration. -/
def runFrom (cfg : Config) (contract elaborate : String → String)
    (final_goals_formatted : List String) :
    ℕ → List IterInput → LoopState → LoopState
  | _, [], st => st
  | i, inp :: rest, st =>
    if i < cfg.total_iterations then
      let r := runIteration cfg contract elaborate final_goals_formatted i st inp
      if r.status = IterStatus.terminated then r.state
      else runFrom cfg contract elaborate final_goals_formatted (i + 1) rest r.state
    else st

/-- Start-iteration computation (bootstrap.py lines 102-113): a fresh run
starts at 0; a continued run reads the iteration entry of the persisted
model_info and starts one past it; a continued run whose metadata misses
the entry raises KeyError, modelled by none. -/
def resumeStartIteration (continueRun : Bool) (saved_model_info : Option ℕ) :
    Option ℕ :=
  if continueRun then saved_model_info.map (fun k => k + 1)
  else some 0

/-! Spec-side definitions, written from the words of the specification for
refinement comparison against the embedded source. -/

/-- Spec-side classification rule (spec 4.3): assign the first bucket i,
in ascending percentile order, such that logprob is at most thresholds i,
or the last bucket if none match. -/
def specClassify (buckets : List (String × ℚ)) (ths : List ℚ) (lp : ℚ) :
    Option String :=
  match (buckets.zip ths).find? (fun bt => lp ≤ bt.2) with
  | some bt => some bt.1.1
  | none => buckets.getLast?.map (fun b => b.1)

/-- Spec-side threshold list claimed by C3: percentiles of the successful
log-likelihoods of the sampled-batch results merged with the final-goal
results of the same iteration. -/
def specMergedThresholds (cfg : Config) (input : IterInput) : List ℚ :=
  (sortBuckets cfg.difficulty_buckets).map
    (fun kv => percentile
      (get_log_probs (prove_conjectures input.batchRaw ++ prove_conjectures input.finalRaw))
      kv.2)

/-- Spec-side set claimed by C9: the logprobs of exactly those successful
results that the classification rule assigns to the last bucket label. -/
def lastBucketLogprobs (buckets : List (String × ℚ)) (ths : List ℚ)
    (rs : List StudentResult) : List ℚ :=
  (rs.filter (fun r => r.success &&
      (classifyFrom buckets ths r.logprob == buckets.getLast?.map (fun b => b.1)))).map
    (fun r => r.logprob)

/-! Helper lemmas. -/

/-- Collection keeps a result exactly when its error payload is falsy. -/
lemma prove_conjectures_eq_filter (raw : List StudentResult) :
    prove_conjectures raw = raw.filter (fun r => r.error = "") := by
  induction raw with
  | nil => rfl
  | cons r rs ih =>
    by_cases h : r.error = "" <;> simp [prove_conjectures, h, ih]

/-- Collection is the identity when no result carries an error. -/
lemma prove_conjectures_all_ok (raw : List StudentResult)
    (h : ∀ r ∈ raw, r.error = "") : prove_conjectures raw = raw := by
  rw [prove_conjectures_eq_filter]
  exact List.filter_eq_self.mpr (fun r hr => by simpa using h r hr)

/-- get_log_probs yields one entry per successful result. -/
lemma get_log_probs_length_le (rs : List StudentResult) :
    (get_log_probs rs).length ≤ rs.length := by
  induction rs with
  | nil => simp [get_log_probs]
  | cons r rest ih =>
    by_cases h : r.success <;> simp [get_log_probs, h] <;> omega

/-- get_log_probs has full length on a list of successes. -/
lemma get_log_probs_length_of_all_success (rs : List StudentResult)
    (h : ∀ r ∈ rs, r.success = true) :
    (get_log_probs rs).length = rs.length := by
  induction rs with
  | nil => rfl
  | cons r rest ih =>
    have hr := h r (by simp)
    simp [get_log_probs, hr, ih (fun x hx => h x (by simp [hx]))]

/-- C4: for every list of submitted proof-search tasks, collection returns
exactly the results whose error field is empty, in submission order (a
sublist of the submission order); a result with a non-empty error field is
dropped, for any number of errored tasks including all of them. -/
theorem collection_keeps_error_free_in_order (raw : List StudentResult) :
    prove_conjectures raw = raw.filter (fun r => r.error = "") ∧
    (prove_conjectures raw).Sublist raw ∧
    ((∀ r ∈ raw, r.error ≠ "") → prove_conjectures raw = []) := by
  refine ⟨prove_conjectures_eq_filter raw, ?_, ?_⟩
  · rw [prove_conjectures_eq_filter]
    exact List.filter_sublist raw
  · intro h
    rw [prove_conjectures_eq_filter]
    refine List.filter_eq_nil_iff.mpr (fun r hr => ?_)
    simpa using h r hr

/-- Witness for C4: with every submitted task errored, collection returns
the empty list. -/
theorem collection_keeps_error_free_in_order_witness :
    prove_conjectures
      [⟨"a", false, 0, "", [], [], "boom"⟩, ⟨"b", true, -1, "p", [], [], "oops"⟩] = [] :=
  (collection_keeps_error_free_in_order
    [⟨"a", false, 0, "", [], [], "boom"⟩, ⟨"b", true, -1, "p", [], [], "oops"⟩]).2.2
    (by decide)

/-- C2: for every successful result, classification assigns the label of
the first bucket i, in ascending percentile order, with logprob at most
thresholds i, and the last bucket label when no earlier bucket matches
(the refinement of classifyFrom by specClassify); every unsuccessful
result gets the distinguished fail label regardless of thresholds. -/
theorem classification_first_bucket_rule (buckets : List (String × ℚ))
    (ths : List ℚ) (hlen : ths.length = buckets.length) :
    (∀ lp : ℚ, classifyFrom buckets ths lp = specClassify buckets ths lp) ∧
    (∀ r : StudentResult, r.success = true →
      resultOutcome buckets ths r = (specClassify buckets ths r.logprob).getD "") ∧
    (∀ r : StudentResult, r.success = false →
      resultOutcome buckets ths r = FAIL) := by
  have main : ∀ (bs : List (String × ℚ)) (ts : List ℚ), ts.length = bs.length →
      ∀ lp : ℚ, classifyFrom bs ts lp = specClassify bs ts lp := by
    intro bs
    induction bs with
    | nil =>
      intro ts hts lp
      have hnil : ts = [] := List.length_eq_zero.mp (by simpa using hts)
      subst hnil
      rfl
    | cons b rest ih =>
      intro ts hts lp
      obtain ⟨t, ts', rfl⟩ : ∃ t ts', ts = t :: ts' := by
        cases ts with
        | nil => simp at hts
        | cons a as => exact ⟨a, as, rfl⟩
      obtain ⟨k, q⟩ := b
      have hts' : ts'.length = rest.length := by simpa using hts
      by_cases hle : lp ≤ t
      · simp [classifyFrom, specClassify, hle]
      · rcases rest with _ | ⟨b2, rest'⟩
        · simp [classifyFrom, specClassify, hle]
        · calc classifyFrom ((k, q) :: b2 :: rest') (t :: ts') lp
              = classifyFrom (b2 :: rest') ts' lp := by
                simp [classifyFrom, hle]
            _ = specClassify (b2 :: rest') ts' lp := ih ts' hts' lp
            _ = specClassify ((k, q) :: b2 :: rest') (t :: ts') lp := by
                simp [specClassify, hle, List.getLast?_cons_cons]
  refine ⟨main buckets ths hlen, ?_, ?_⟩
  · intro r hr
    simp [resultOutcome, hr, main buckets ths hlen r.logprob]
  · intro r hr
    simp [resultOutcome, hr, FAIL]

/-- Witness for C2: two buckets, a success landing in the catch-all last
bucket and a failed result mapping to fail. -/
theorem classification_first_bucket_rule_witness :
    classifyFrom [("easy", (50 : ℚ)), ("hard", 90)] [-5, -9/5] (-1) =
      specClassify [("easy", (50 : ℚ)), ("hard", 90)] [-5, -9/5] (-1) ∧
    resultOutcome [("easy", (50 : ℚ)), ("hard", 90)] [-5, -9/5]
      ⟨"c", false, -1, "", [], [], ""⟩ = FAIL :=
  ⟨(classification_first_bucket_rule [("easy", (50 : ℚ)), ("hard", 90)] [-5, -9/5]
      (by decide)).1 (-1),
   (classification_first_bucket_rule [("easy", (50 : ℚ)), ("hard", 90)] [-5, -9/5]
      (by decide)).2.2 ⟨"c", false, -1, "", [], [], ""⟩ rfl⟩

/-- The sampling loop preserves distinctness of the batch and freshness
with respect to the proven set. -/
lemma sampleConjectures_sound (contract : String → String) (proven : List String)
    (n : ℕ) :
    ∀ (proposals acc : List String), acc.Nodup → (∀ c ∈ acc, c ∉ proven) →
      (sampleConjectures contract proven n proposals acc).Nodup ∧
      ∀ c ∈ sampleConjectures contract proven n proposals acc, c ∉ proven := by
  intro proposals
  induction proposals with
  | nil =>
    intro acc h1 h2
    exact ⟨h1, h2⟩
  | cons p rest ih =>
    intro acc h1 h2
    simp only [sampleConjectures]
    by_cases hn : n ≤ acc.length
    · rw [if_pos hn]
      exact ⟨h1, h2⟩
    · rw [if_neg hn]
      by_cases hp : p ≠ "" ∧ p ∉ acc ++ proven
      · rw [if_pos hp]
        by_cases hc : contract p ∉ acc ++ proven
        · rw [if_pos hc]
          have hcacc : contract p ∉ acc := fun hmem => hc (List.mem_append_left _ hmem)
          have hcprov : contract p ∉ proven := fun hmem => hc (List.mem_append_right _ hmem)
          refine ih (acc ++ [contract p]) ?_ ?_
          · refine List.nodup_append.mpr ⟨h1, List.nodup_singleton _, ?_⟩
            intro x hx hx'
            have : x = contract p := by simpa using hx'
            exact hcacc (this ▸ hx)
          · intro c hcmem
            rcases List.mem_append.mp hcmem with hl | hr
            · exact h2 c hl
            · have : c = contract p := by simpa using hr
              exact this ▸ hcprov
        · rw [if_neg hc]
          exact ih acc h1 h2
      · rw [if_neg hp]
        exact ih acc h1 h2

/-- C6: in every iteration, the sampled batch is free of duplicates after
canonicalization and disjoint from the accumulated proven-conjecture set
as it stands when sampling completes. -/
theorem sampled_batch_nodup_fresh (cfg : Config) (contract elaborate : String → String)
    (fg : List String) (i : ℕ) (st : LoopState) (input : IterInput) :
    ((runIteration cfg contract elaborate fg i st input).conjectures).Nodup ∧
    ∀ c ∈ (runIteration cfg contract elaborate fg i st input).conjectures,
      c ∉ st.proven_conjectures := by
  have key := sampleConjectures_sound contract st.proven_conjectures cfg.n_conjectures
    input.proposals [] List.nodup_nil (by simp)
  unfold runIteration
  dsimp only
  split
  · constructor
    · simp
    · simp
  · split
    · simpa using key
    · simpa using key

/-- Witness for C6: a proposal stream with a repeated proposal still
yields a duplicate-free batch. -/
theorem sampled_batch_nodup_fresh_witness :
    ((runIteration ⟨[("easy", 50)], 2, false, false, 5⟩ id id ["g"] 0 initState
      ⟨[⟨"g", false, 0, "", [], [], ""⟩], [], ["a", "b", "a"],
       [⟨"a", true, -1, "p", [], [], ""⟩,
        ⟨"b", true, -2, "p", [], [], ""⟩]⟩).conjectures).Nodup :=
  (sampled_batch_nodup_fresh ⟨[("easy", 50)], 2, false, false, 5⟩ id id ["g"] 0 initState
    ⟨[⟨"g", false, 0, "", [], [], ""⟩], [], ["a", "b", "a"],
     [⟨"a", true, -1, "p", [], [], ""⟩,
      ⟨"b", true, -2, "p", [], [], ""⟩]⟩).1

/-- Invariant tying the seen-goal set to the consumption log: a goal
outside the set was never consumed, a goal inside it at most once. -/
def ConsumedOnce (G : String) (seen log : List String) : Prop :=
  (G ∈ seen → log.count G ≤ 1) ∧ (G ∉ seen → log.count G = 0)

/-- One hindsight step grows the seen set and preserves ConsumedOnce. -/
lemma hindsightStep_inv (cfg : Config) (elaborate : String → String)
    (buckets : List (String × ℚ)) (ths : List ℚ) (problem : String) (G : String)
    (acc : CurationAcc) (h : HindsightExample) :
    acc.seen_hindsight_goals ⊆
      (hindsightStep cfg elaborate buckets ths problem acc h).seen_hindsight_goals ∧
    (ConsumedOnce G acc.seen_hindsight_goals acc.hindsightLog →
      ConsumedOnce G
        (hindsightStep cfg elaborate buckets ths problem acc h).seen_hindsight_goals
        (hindsightStep cfg elaborate buckets ths problem acc h).hindsightLog) := by
  unfold hindsightStep
  by_cases hg : h.goal ∈ acc.seen_hindsight_goals
  · rw [if_pos hg]
    exact ⟨fun x hx => hx, fun hinv => hinv⟩
  · rw [if_neg hg]
    dsimp only
    refine ⟨fun x hx => List.mem_append_left _ hx, fun hinv => ⟨?_, ?_⟩⟩
    · intro hmem
      by_cases hEq : G = h.goal
      · have h0 : acc.hindsightLog.count G = 0 := hinv.2 (by rw [hEq]; exact hg)
        have h1 : List.count G [h.goal] = 1 := by
          rw [hEq]
          simp
        simp [List.count_append, h0, h1]
      · have hmem' : G ∈ acc.seen_hindsight_goals := by
          rcases List.mem_append.mp hmem with h1 | h1
          · exact h1
          · exact absurd (by simpa using h1) hEq
        have hle := hinv.1 hmem'
        have hcnt : List.count G [h.goal] = 0 := List.count_eq_zero.mpr (by simp [hEq])
        simp [List.count_append, hcnt]
        omega
    · intro hmem
      have hG1 : G ∉ acc.seen_hindsight_goals := fun hx => hmem (List.mem_append_left _ hx)
      have hEq : G ≠ h.goal := fun he => hmem (by simp [he])
      have h0 := hinv.2 hG1
      have hcnt : List.count G [h.goal] = 0 := List.count_eq_zero.mpr (by simp [hEq])
      simp [List.count_append, h0, hcnt]

/-- The fold over the hindsight examples of one result grows the seen set
and preserves ConsumedOnce; the seen set and log of the starting
accumulator are exposed as parameters so the lemma applies to compound
accumulators by rfl. -/
lemma hindsightFold_inv (cfg : Config) (elaborate : String → String)
    (buckets : List (String × ℚ)) (ths : List ℚ) (problem : String) (G : String) :
    ∀ (hs : List HindsightExample) (acc : CurationAcc) (s l : List String),
      acc.seen_hindsight_goals = s → acc.hindsightLog = l →
      s ⊆
        (hs.foldl (hindsightStep cfg elaborate buckets ths problem) acc).seen_hindsight_goals ∧
      (ConsumedOnce G s l →
        ConsumedOnce G
          (hs.foldl (hindsightStep cfg elaborate buckets ths problem) acc).seen_hindsight_goals
          (hs.foldl (hindsightStep cfg elaborate buckets ths problem) acc).hindsightLog) := by
  intro hs
  induction hs with
  | nil =>
    intro acc s l hse hlo
    subst hse
    subst hlo
    exact ⟨fun x hx => hx, fun hinv => hinv⟩
  | cons h rest ih =>
    intro acc s l hse hlo
    subst hse
    subst hlo
    simp only [List.foldl_cons]
    obtain ⟨hsub1, hpres1⟩ := hindsightStep_inv cfg elaborate buckets ths problem G acc h
    obtain ⟨hsub2, hpres2⟩ := ih (hindsightStep cfg elaborate buckets ths problem acc h)
      (hindsightStep cfg elaborate buckets ths problem acc h).seen_hindsight_goals
      (hindsightStep cfg elaborate buckets ths problem acc h).hindsightLog rfl rfl
    exact ⟨fun x hx => hsub2 (hsub1 hx), fun hinv => hpres2 (hpres1 hinv)⟩

/-- Curation of one student result grows the seen set and preserves
ConsumedOnce. -/
lemma curateResult_inv (cfg : Config) (elaborate : String → String)
    (buckets : List (String × ℚ)) (ths : List ℚ) (G : String)
    (acc : CurationAcc) (r : StudentResult) :
    acc.seen_hindsight_goals ⊆
      (curateResult cfg elaborate buckets ths acc r).seen_hindsight_goals ∧
    (ConsumedOnce G acc.seen_hindsight_goals acc.hindsightLog →
      ConsumedOnce G (curateResult cfg elaborate buckets ths acc r).seen_hindsight_goals
        (curateResult cfg elaborate buckets ths acc r).hindsightLog) := by
  by_cases hf : cfg.freeze_conjecturer <;> by_cases hs : r.success <;>
    by_cases hh : cfg.train_policy_on_hindsight_examples <;>
      simp only [curateResult, hf, hs, hh, if_true, if_false, ite_true, ite_false,
        Bool.false_eq_true] <;>
      first
        | exact (hindsightFold_inv cfg elaborate buckets ths r.problem G
            r.hindsight_examples _ _ _ rfl rfl)
        | exact ⟨fun x hx => hx, fun hinv => hinv⟩

/-- The curation fold over a list of results grows the seen set and
preserves ConsumedOnce. -/
lemma curateFold_inv (cfg : Config) (elaborate : String → String)
    (buckets : List (String × ℚ)) (ths : List ℚ) (G : String) :
    ∀ (rs : List StudentResult) (acc : CurationAcc) (s l : List String),
      acc.seen_hindsight_goals = s → acc.hindsightLog = l →
      s ⊆
        (rs.foldl (curateResult cfg elaborate buckets ths) acc).seen_hindsight_goals ∧
      (ConsumedOnce G s l →
        ConsumedOnce G
          (rs.foldl (curateResult cfg elaborate buckets ths) acc).seen_hindsight_goals
          (rs.foldl (curateResult cfg elaborate buckets ths) acc).hindsightLog) := by
  intro rs
  induction rs with
  | nil =>
    intro acc s l hse hlo
    subst hse
    subst hlo
    exact ⟨fun x hx => hx, fun hinv => hinv⟩
  | cons r rest ih =>
    intro acc s l hse hlo
    subst hse
    subst hlo
    simp only [List.foldl_cons]
    obtain ⟨hsub1, hpres1⟩ := curateResult_inv cfg elaborate buckets ths G acc r
    obtain ⟨hsub2, hpres2⟩ := ih (curateResult cfg elaborate buckets ths acc r)
      (curateResult cfg elaborate buckets ths acc r).seen_hindsight_goals
      (curateResult cfg elaborate buckets ths acc r).hindsightLog rfl rfl
    exact ⟨fun x hx => hsub2 (hsub1 hx), fun hinv => hpres2 (hpres1 hinv)⟩

/-- One loop iteration grows the seen set and preserves ConsumedOnce. -/
lemma runIteration_hindsight_inv (cfg : Config) (contract elaborate : String → String)
    (fg : List String) (i : ℕ) (st : LoopState) (input : IterInput) (G : String) :
    st.seen_hindsight_goals ⊆
      (runIteration cfg contract elaborate fg i st input).state.seen_hindsight_goals ∧
    (ConsumedOnce G st.seen_hindsight_goals st.hindsightLog →
      ConsumedOnce G
        (runIteration cfg contract elaborate fg i st input).state.seen_hindsight_goals
        (runIteration cfg contract elaborate fg i st input).state.hindsightLog) := by
  unfold runIteration
  dsimp only
  split
  · exact ⟨fun x hx => hx, fun hinv => hinv⟩
  · split
    · exact ⟨fun x hx => hx, fun hinv => hinv⟩
    · exact curateFold_inv cfg elaborate _ _ G _ _ _ _ rfl rfl

/-- The loop from any index grows the seen set and preserves
ConsumedOnce. -/
lemma runFrom_hindsight_inv (cfg : Config) (contract elaborate : String → String)
    (fg : List String) (G : String) :
    ∀ (inputs : List IterInput) (i : ℕ) (st : LoopState),
      st.seen_hindsight_goals ⊆
        (runFrom cfg contract elaborate fg i inputs st).seen_hindsight_goals ∧
      (ConsumedOnce G st.seen_hindsight_goals st.hindsightLog →
        ConsumedOnce G (runFrom cfg contract elaborate fg i inputs st).seen_hindsight_goals
          (runFrom cfg contract elaborate fg i inputs st).hindsightLog) := by
  intro inputs
  induction inputs with
  | nil => exact fun i st => ⟨fun x hx => hx, fun hinv => hinv⟩
  | cons inp rest ih =>
    intro i st
    simp only [runFrom]
    by_cases hb : i < cfg.total_iterations
    · rw [if_pos hb]
      obtain ⟨hsub1, hpres1⟩ := runIteration_hindsight_inv cfg contract elaborate fg i st inp G
      by_cases hterm :
          (runIteration cfg contract elaborate fg i st inp).status = IterStatus.terminated
      · rw [if_pos hterm]
        exact ⟨hsub1, hpres1⟩
      · rw [if_neg hterm]
        obtain ⟨hsub2, hpres2⟩ :=
          ih (i + 1) (runIteration cfg contract elaborate fg i st inp).state
        exact ⟨fun x hx => hsub2 (hsub1 hx), fun hinv => hpres2 (hpres1 hinv)⟩
    · rw [if_neg hb]
      exact ⟨fun x hx => hx, fun hinv => hinv⟩

/-- C7: over an entire run from the fresh initial state, the training data
of a hindsight goal G is consumed at most once (the consumption log counts
G at most once), and the seen-goal set only grows across any stretch of
the loop, so a goal once consumed is never reconsidered. -/
theorem hindsight_goal_consumed_once (cfg : Config)
    (contract elaborate : String → String) (fg : List String)
    (inputs : List IterInput) (G : String) :
    (runFrom cfg contract elaborate fg 0 inputs initState).hindsightLog.count G ≤ 1 ∧
    ∀ (i : ℕ) (st : LoopState) (inputs2 : List IterInput),
      st.seen_hindsight_goals ⊆
        (runFrom cfg contract elaborate fg i inputs2 st).seen_hindsight_goals := by
  constructor
  · have hinv0 : ConsumedOnce G initState.seen_hindsight_goals initState.hindsightLog := by
      constructor
      · intro hmem
        simp [initState] at hmem
      · intro _
        simp [initState]
    obtain ⟨ha, hb⟩ :=
      (runFrom_hindsight_inv cfg contract elaborate fg G inputs 0 initState).2 hinv0
    by_cases hmem :
        G ∈ (runFrom cfg contract elaborate fg 0 inputs initState).seen_hindsight_goals
    · exact ha hmem
    · simp [hb hmem]
  · intro i st inputs2
    exact (runFrom_hindsight_inv cfg contract elaborate fg G inputs2 i st).1

/-- C1: when every statement of the final-goal set is successfully proven
(one error-free successful result per goal), the iteration takes the
termination branch before any validation evaluation, sampling or example
writing, writes exactly one proof record per final goal to
final_goals_proofs.json, is unaffected by the validation results, and the
loop stops at this iteration. -/
theorem final_goals_termination (cfg : Config) (contract elaborate : String → String)
    (fg : List String) (i : ℕ) (st : LoopState) (input : IterInput)
    (rest : List IterInput)
    (hlen : input.finalRaw.length = fg.length)
    (hall : ∀ r ∈ input.finalRaw, r.error = "" ∧ r.success = true)
    (hbudget : i < cfg.total_iterations) :
    (runIteration cfg contract elaborate fg i st input).status = IterStatus.terminated ∧
    (∃ frs,
      (runIteration cfg contract elaborate fg i st input).state.finalProofsFile = some frs ∧
      frs.length = fg.length) ∧
    (runIteration cfg contract elaborate fg i st input).state.valProofsFiles =
      st.valProofsFiles ∧
    (runIteration cfg contract elaborate fg i st input).state.examplesFiles =
      st.examplesFiles ∧
    (∀ v, runIteration cfg contract elaborate fg i st { input with valRaw := v } =
      runIteration cfg contract elaborate fg i st input) ∧
    runFrom cfg contract elaborate fg i (input :: rest) st =
      (runIteration cfg contract elaborate fg i st input).state := by
  have hpc : prove_conjectures input.finalRaw = input.finalRaw :=
    prove_conjectures_all_ok _ (fun r hr => (hall r hr).1)
  have hglp : (get_log_probs (prove_conjectures input.finalRaw)).length =
      (fg.map (fun g => "Conj:(hard) " ++ g)).length := by
    rw [hpc, get_log_probs_length_of_all_success _ (fun r hr => (hall r hr).2), hlen,
      List.length_map]
  have hstat :
      (runIteration cfg contract elaborate fg i st input).status = IterStatus.terminated := by
    unfold runIteration
    dsimp only
    rw [if_pos hglp]
  refine ⟨hstat, ?_, ?_, ?_, ?_, ?_⟩
  · refine ⟨(prove_conjectures input.finalRaw).map
      (fun srf => FinalEntry.mk srf.problem (srf.extracted_examples.map (fun l => l.str))),
      ?_, ?_⟩
    · unfold runIteration
      dsimp only
      rw [if_pos hglp]
    · rw [List.length_map, hpc, hlen]
  · unfold runIteration
    dsimp only
    rw [if_pos hglp]
  · unfold runIteration
    dsimp only
    rw [if_pos hglp]
  · intro v
    unfold runIteration
    dsimp only
    rw [if_pos hglp, if_pos hglp]
  · simp only [runFrom]
    rw [if_pos hbudget, if_pos hstat]

/-- Witness for C1: a single final goal proven by an error-free successful
result terminates the loop at once. -/
theorem final_goals_termination_witness :
    (runIteration ⟨[("easy", 50)], 1, false, false, 5⟩ id id ["g1"] 0 initState
      ⟨[⟨"g1", true, -2, "pf", [⟨"e1"⟩], [], ""⟩], [], [], []⟩).status =
      IterStatus.terminated :=
  (final_goals_termination ⟨[("easy", 50)], 1, false, false, 5⟩ id id ["g1"] 0 initState
    ⟨[⟨"g1", true, -2, "pf", [⟨"e1"⟩], [], ""⟩], [], [], []⟩ []
    (by decide) (by decide) (by decide)).1

/-- C5: an iteration whose sampled batch yields zero successful proofs
(and which does not terminate at the final-goal gate) warns, computes no
thresholds, trains nothing, leaves the accumulators, the checkpoint
metadata and the examples files untouched, and the loop proceeds with the
next iteration index. -/
theorem zero_success_iteration_skips (cfg : Config) (contract elaborate : String → String)
    (fg : List String) (i : ℕ) (st : LoopState) (input : IterInput)
    (rest : List IterInput)
    (hterm : (get_log_probs (prove_conjectures input.finalRaw)).length ≠ fg.length)
    (hzero : get_log_probs (prove_conjectures input.batchRaw) = [])
    (hbudget : i < cfg.total_iterations) :
    (runIteration cfg contract elaborate fg i st input).status = IterStatus.skipped ∧
    (runIteration cfg contract elaborate fg i st input).warnedNoSolutions = true ∧
    (runIteration cfg contract elaborate fg i st input).thresholdsUsed = none ∧
    (runIteration cfg contract elaborate fg i st input).didTrain = false ∧
    (runIteration cfg contract elaborate fg i st input).state.examplesFiles =
      st.examplesFiles ∧
    (runIteration cfg contract elaborate fg i st input).state.model_info = st.model_info ∧
    (runIteration cfg contract elaborate fg i st input).state.agentSavedAt =
      st.agentSavedAt ∧
    (runIteration cfg contract elaborate fg i st input).state.proven_conjectures =
      st.proven_conjectures ∧
    (runIteration cfg contract elaborate fg i st input).state.seen_hindsight_goals =
      st.seen_hindsight_goals ∧
    runFrom cfg contract elaborate fg i (input :: rest) st =
      runFrom cfg contract elaborate fg (i + 1) rest
        (runIteration cfg contract elaborate fg i st input).state := by
  have hterm' : ¬((get_log_probs (prove_conjectures input.finalRaw)).length =
      (fg.map (fun g => "Conj:(hard) " ++ g)).length) := by
    rw [List.length_map]
    exact hterm
  have hstat :
      (runIteration cfg contract elaborate fg i st input).status = IterStatus.skipped := by
    unfold runIteration
    dsimp only
    rw [if_neg hterm', if_pos hzero]
  have hloop : runFrom cfg contract elaborate fg i (input :: rest) st =
      runFrom cfg contract elaborate fg (i + 1) rest
        (runIteration cfg contract elaborate fg i st input).state := by
    simp only [runFrom]
    rw [if_pos hbudget, if_neg (by rw [hstat]; intro hx; exact nomatch hx)]
  refine ⟨hstat, ?_, ?_, ?_, ?_, ?_, ?_, ?_, ?_, hloop⟩ <;>
    (unfold runIteration
     dsimp only
     rw [if_neg hterm', if_pos hzero])

/-- Witness for C5: one failed batch result and one unproven final goal
leave the checkpoint metadata untouched. -/
theorem zero_success_iteration_skips_witness :
    (runIteration ⟨[("easy", 50)], 1, false, false, 5⟩ id id ["g"] 0 initState
      ⟨[⟨"g", false, 0, "", [], [], ""⟩], [], ["c1"], [⟨"c1", false, 0, "", [], [], ""⟩]⟩).status =
      IterStatus.skipped :=
  (zero_success_iteration_skips ⟨[("easy", 50)], 1, false, false, 5⟩ id id ["g"] 0 initState
    ⟨[⟨"g", false, 0, "", [], [], ""⟩], [], ["c1"], [⟨"c1", false, 0, "", [], [], ""⟩]⟩ []
    (by decide) (by decide) (by decide)).1

/-- An iteration input carrying a hindsight example, used by the C7
witness twice in a row: the proposal stream supplies the one conjecture
that the sampler accepts and batchRaw holds its single worker result. -/
def c7input : IterInput :=
  ⟨[⟨"g", false, 0, "", [], [], ""⟩], [], ["c1"],
   [⟨"c1", true, -2, "p", [],
     [⟨"subgoal", -6, [TrainingExample.payload "x"]⟩], ""⟩]⟩

/-- Witness for C7: a hindsight goal surfacing in two consecutive
iterations is consumed at most once. -/
theorem hindsight_goal_consumed_once_witness :
    (runFrom ⟨[("easy", 50)], 1, false, true, 5⟩ id id ["g"] 0 [c7input, c7input]
      initState).hindsightLog.count "subgoal" ≤ 1 :=
  (hindsight_goal_consumed_once ⟨[("easy", 50)], 1, false, true, 5⟩ id id ["g"]
    [c7input, c7input] "subgoal").1

/-- Concrete run used for claim C3: two final goals of which only one is
proven, one bucket at the 50th percentile, one batch success at logprob 0
and one final-goal success at logprob -10.  n_conjectures is 1, matching
the single sampled conjecture and the single batch result. -/
def c3cfg : Config := ⟨[("easy", 50)], 1, false, false, 10⟩

/-- Oracle inputs of the C3 run: one raw result per final goal, one raw
result per validation goal (the validation set is the two final goals),
the proposal stream supplies the one conjecture c1 that the sampler
accepts, and batchRaw holds exactly one worker result for that
conjecture. -/
def c3input : IterInput :=
  ⟨[⟨"g1", true, -10, "p", [], [], ""⟩, ⟨"g2", false, 0, "", [], [], ""⟩],
   [⟨"g1", false, 0, "", [], [], ""⟩, ⟨"g2", false, 0, "", [], [], ""⟩], ["c1"],
   [⟨"c1", true, 0, "p", [], [], ""⟩]⟩

/-- Counterexample to C3: the thresholds actually used come from the
sampled-batch successes alone (the 50th percentile of the single batch
logprob 0 is 0), not from the batch merged with the final-goal successes
(whose 50th percentile would be -5). -/
theorem thresholds_not_merged_counterexample :
    (runIteration c3cfg id id ["g1", "g2"] 0 initState c3input).thresholdsUsed =
      some [0] ∧
    specMergedThresholds c3cfg c3input = [-5] ∧
    (runIteration c3cfg id id ["g1", "g2"] 0 initState c3input).thresholdsUsed ≠
      some (specMergedThresholds c3cfg c3input) := by
  have h1 : (runIteration c3cfg id id ["g1", "g2"] 0 initState c3input).thresholdsUsed =
      some [0] := by
    norm_num [runIteration, c3cfg, c3input, initState, prove_conjectures, get_log_probs,
      percentile, sortBuckets, List.insertionSort, List.orderedInsert, List.cons_ne_nil]
  have h2 : specMergedThresholds c3cfg c3input = [-5] := by
    norm_num [specMergedThresholds, c3cfg, c3input, prove_conjectures, get_log_probs,
      percentile, sortBuckets, List.insertionSort, List.orderedInsert]
  refine ⟨h1, h2, ?_⟩
  rw [h1, h2]
  norm_num

/-- A hindsight step never touches the proven-conjecture accumulator. -/
lemma hindsightStep_proven (cfg : Config) (elaborate : String → String)
    (buckets : List (String × ℚ)) (ths : List ℚ) (problem : String)
    (acc : CurationAcc) (h : HindsightExample) :
    (hindsightStep cfg elaborate buckets ths problem acc h).proven_conjectures =
      acc.proven_conjectures := by
  unfold hindsightStep
  by_cases hg : h.goal ∈ acc.seen_hindsight_goals
  · rw [if_pos hg]
  · rw [if_neg hg]

/-- The hindsight fold never touches the proven-conjecture accumulator. -/
lemma hindsightFold_proven (cfg : Config) (elaborate : String → String)
    (buckets : List (String × ℚ)) (ths : List ℚ) (problem : String) :
    ∀ (hs : List HindsightExample) (acc : CurationAcc),
      (hs.foldl (hindsightStep cfg elaborate buckets ths problem) acc).proven_conjectures =
        acc.proven_conjectures := by
  intro hs
  induction hs with
  | nil => intro acc; rfl
  | cons h rest ih =>
    intro acc
    simp only [List.foldl_cons]
    rw [ih, hindsightStep_proven]

/-- Curation of one result appends its problem to the proven set exactly
when it succeeded. -/
lemma curateResult_proven (cfg : Config) (elaborate : String → String)
    (buckets : List (String × ℚ)) (ths : List ℚ)
    (acc : CurationAcc) (r : StudentResult) :
    (curateResult cfg elaborate buckets ths acc r).proven_conjectures =
      acc.proven_conjectures ++ (if r.success then [r.problem] else []) := by
  by_cases hf : cfg.freeze_conjecturer <;> by_cases hs : r.success <;>
    by_cases hh : cfg.train_policy_on_hindsight_examples <;>
      simp [curateResult, hf, hs, hh, hindsightFold_proven]

/-- The proven set only grows along the curation fold. -/
lemma curateFold_proven_mono (cfg : Config) (elaborate : String → String)
    (buckets : List (String × ℚ)) (ths : List ℚ) :
    ∀ (rs : List StudentResult) (acc : CurationAcc) (p : String),
      p ∈ acc.proven_conjectures →
      p ∈ (rs.foldl (curateResult cfg elaborate buckets ths) acc).proven_conjectures := by
  intro rs
  induction rs with
  | nil => exact fun acc p hp => hp
  | cons r rest ih =>
    intro acc p hp
    simp only [List.foldl_cons]
    refine ih _ p ?_
    rw [curateResult_proven]
    exact List.mem_append_left _ hp

/-- Every successful result in the curated list lands in the proven set. -/
lemma curateFold_proven_mem (cfg : Config) (elaborate : String → String)
    (buckets : List (String × ℚ)) (ths : List ℚ) :
    ∀ (rs : List StudentResult) (acc : CurationAcc) (r : StudentResult),
      r ∈ rs → r.success = true →
      r.problem ∈ (rs.foldl (curateResult cfg elaborate buckets ths) acc).proven_conjectures := by
  intro rs
  induction rs with
  | nil =>
    intro acc r hr
    exact absurd hr (List.not_mem_nil r)
  | cons r0 rest ih =>
    intro acc r hr hrs
    simp only [List.foldl_cons]
    rcases List.mem_cons.mp hr with h | h
    · subst h
      refine curateFold_proven_mono cfg elaborate buckets ths rest _ r.problem ?_
      rw [curateResult_proven, hrs]
      simp
    · exact ih _ r h hrs

/-- A hindsight step only ever appends to the examples list. -/
lemma hindsightStep_examples_mono (cfg : Config) (elaborate : String → String)
    (buckets : List (String × ℚ)) (ths : List ℚ) (problem : String)
    (acc : CurationAcc) (h : HindsightExample) (e : TrainingExample)
    (he : e ∈ acc.examples) :
    e ∈ (hindsightStep cfg elaborate buckets ths problem acc h).examples := by
  unfold hindsightStep
  by_cases hg : h.goal ∈ acc.seen_hindsight_goals
  · rw [if_pos hg]
    exact he
  · rw [if_neg hg]
    dsimp only
    by_cases hf : cfg.freeze_conjecturer <;> simp [hf, he]

/-- The hindsight fold only ever appends to the examples list. -/
lemma hindsightFold_examples_mono (cfg : Config) (elaborate : String → String)
    (buckets : List (String × ℚ)) (ths : List ℚ) (problem : String) :
    ∀ (hs : List HindsightExample) (acc : CurationAcc) (e : TrainingExample),
      e ∈ acc.examples →
      e ∈ (hs.foldl (hindsightStep cfg elaborate buckets ths problem) acc).examples := by
  intro hs
  induction hs with
  | nil => exact fun acc e he => he
  | cons h rest ih =>
    intro acc e he
    simp only [List.foldl_cons]
    exact ih _ e (hindsightStep_examples_mono cfg elaborate buckets ths problem acc h e he)

/-- Curating one result only ever appends to the examples list. -/
lemma curateResult_examples_mono (cfg : Config) (elaborate : String → String)
    (buckets : List (String × ℚ)) (ths : List ℚ)
    (acc : CurationAcc) (r : StudentResult) (e : TrainingExample)
    (he : e ∈ acc.examples) :
    e ∈ (curateResult cfg elaborate buckets ths acc r).examples := by
  by_cases hf : cfg.freeze_conjecturer <;> by_cases hs : r.success <;>
    by_cases hh : cfg.train_policy_on_hindsight_examples <;>
      simp only [curateResult, hf, hs, hh, ite_true, ite_false, Bool.false_eq_true] <;>
      first
        | exact hindsightFold_examples_mono cfg elaborate buckets ths r.problem
            r.hindsight_examples _ e (by simp [he])
        | simp [he]

/-- The curation fold only ever appends to the examples list. -/
lemma curateFold_examples_mono (cfg : Config) (elaborate : String → String)
    (buckets : List (String × ℚ)) (ths : List ℚ) :
    ∀ (rs : List StudentResult) (acc : CurationAcc) (e : TrainingExample),
      e ∈ acc.examples →
      e ∈ (rs.foldl (curateResult cfg elaborate buckets ths) acc).examples := by
  intro rs
  induction rs with
  | nil => exact fun acc e he => he
  | cons r rest ih =>
    intro acc e he
    simp only [List.foldl_cons]
    exact ih _ e (curateResult_examples_mono cfg elaborate buckets ths acc r e he)

/-- With the conjecturer not frozen, curating a result emits its tagged
difficulty example. -/
lemma curateResult_tag_mem (cfg : Config) (elaborate : String → String)
    (buckets : List (String × ℚ)) (ths : List ℚ)
    (acc : CurationAcc) (r : StudentResult)
    (hfrz : cfg.freeze_conjecturer = false) :
    TrainingExample.tag
        ("Conj:(" ++ resultOutcome buckets ths r ++ ") " ++ elaborate r.problem) ∈
      (curateResult cfg elaborate buckets ths acc r).examples := by
  by_cases hs : r.success <;> by_cases hh : cfg.train_policy_on_hindsight_examples <;>
    simp only [curateResult, hfrz, hs, hh, ite_true, ite_false, Bool.false_eq_true] <;>
    first
      | exact hindsightFold_examples_mono cfg elaborate buckets ths r.problem
          r.hindsight_examples _ _ (by simp)
      | simp

/-- With the conjecturer not frozen, every result in the curated list
contributes its tagged difficulty example to the corpus. -/
lemma curateFold_tag_mem (cfg : Config) (elaborate : String → String)
    (buckets : List (String × ℚ)) (ths : List ℚ)
    (hfrz : cfg.freeze_conjecturer = false) :
    ∀ (rs : List StudentResult) (acc : CurationAcc) (r : StudentResult),
      r ∈ rs →
      TrainingExample.tag
          ("Conj:(" ++ resultOutcome buckets ths r ++ ") " ++ elaborate r.problem) ∈
        (rs.foldl (curateResult cfg elaborate buckets ths) acc).examples := by
  intro rs
  induction rs with
  | nil =>
    intro acc r hr
    exact absurd hr (List.not_mem_nil r)
  | cons r0 rest ih =>
    intro acc r hr
    simp only [List.foldl_cons]
    rcases List.mem_cons.mp hr with h | h
    · subst h
      exact curateFold_examples_mono cfg elaborate buckets ths rest _ _
        (curateResult_tag_mem cfg elaborate buckets ths acc r hfrz)
    · exact ih _ r h

/-- C3 (amended): in every iteration that reaches threshold computation,
the percentile thresholds are computed strictly from the successful
log-likelihoods of that iteration's sampled batch — the final-goal results
of the iteration do not contribute to them — and they depend neither on
the loop state nor on the iteration index, so thresholds are never carried
across iterations.  The final-goal results obtained this iteration are
merged into the classified result set and the proven-conjecture set:
every successful final-goal result enters the proven set, and (when the
conjecturer is not frozen) every collected final-goal result contributes
its tagged difficulty example to the examples file written this
iteration. -/
theorem thresholds_from_batch_only (cfg : Config) (contract elaborate : String → String)
    (fg : List String) (i : ℕ) (st : LoopState) (input : IterInput)
    (hterm : (get_log_probs (prove_conjectures input.finalRaw)).length ≠ fg.length)
    (hsucc : get_log_probs (prove_conjectures input.batchRaw) ≠ []) :
    (runIteration cfg contract elaborate fg i st input).thresholdsUsed =
      some ((sortBuckets cfg.difficulty_buckets).map
        (fun kv => percentile (get_log_probs (prove_conjectures input.batchRaw)) kv.2)) ∧
    (∀ (st2 : LoopState) (j : ℕ),
      (runIteration cfg contract elaborate fg j st2 input).thresholdsUsed =
        (runIteration cfg contract elaborate fg i st input).thresholdsUsed) ∧
    (∀ r ∈ prove_conjectures input.finalRaw, r.success = true →
      r.problem ∈
        (runIteration cfg contract elaborate fg i st input).state.proven_conjectures) ∧
    (cfg.freeze_conjecturer = false →
      ∃ E, (runIteration cfg contract elaborate fg i st input).state.examplesFiles =
          st.examplesFiles ++ [(i, E)] ∧
        ∀ r ∈ prove_conjectures input.finalRaw,
          TrainingExample.tag
              ("Conj:(" ++
                resultOutcome (sortBuckets cfg.difficulty_buckets)
                  ((sortBuckets cfg.difficulty_buckets).map
                    (fun kv =>
                      percentile (get_log_probs (prove_conjectures input.batchRaw)) kv.2))
                  r ++
                ") " ++ elaborate r.problem) ∈ E) := by
  have hterm' : ¬((get_log_probs (prove_conjectures input.finalRaw)).length =
      (fg.map (fun g => "Conj:(hard) " ++ g)).length) := by
    rw [List.length_map]
    exact hterm
  refine ⟨?_, ?_, ?_, ?_⟩
  · unfold runIteration
    dsimp only
    rw [if_neg hterm', if_neg hsucc]
  · intro st2 j
    unfold runIteration
    dsimp only
    rw [if_neg hterm', if_neg hsucc, if_neg hterm', if_neg hsucc]
  · intro r hr hrs
    unfold runIteration
    dsimp only
    rw [if_neg hterm', if_neg hsucc]
    exact curateFold_proven_mem cfg elaborate _ _ _ _ r
      (List.mem_append_right _ hr) hrs
  · intro hfrz
    unfold runIteration
    dsimp only
    rw [if_neg hterm', if_neg hsucc]
    refine ⟨_, rfl, ?_⟩
    intro r hr
    exact curateFold_tag_mem cfg elaborate _ _ hfrz _ _ r
      (List.mem_append_right _ hr)

/-- Witness for the amended C3 on the concrete C3 run. -/
theorem thresholds_from_batch_only_witness :
    (runIteration c3cfg id id ["g1", "g2"] 0 initState c3input).thresholdsUsed =
      some ((sortBuckets c3cfg.difficulty_buckets).map
        (fun kv => percentile (get_log_probs (prove_conjectures c3input.batchRaw)) kv.2)) :=
  (thresholds_from_batch_only c3cfg id id ["g1", "g2"] 0 initState c3input
    (by decide) (by decide)).1

/-- Concrete run used for claim C8: one unproven final goal and a sampled
batch with zero successes. -/
def c8cfg : Config := ⟨[("easy", 50)], 1, false, false, 5⟩

/-- Oracle inputs of the zero-success C8 run. -/
def c8input : IterInput :=
  ⟨[⟨"g", false, 0, "", [], [], ""⟩], [], ["c1"], [⟨"c1", false, 0, "", [], [], ""⟩]⟩

/-- Counterexample to C8: iteration 0 of this run neither terminates nor
persists anything — the zero-success continue branch skips the checkpoint,
so the metadata does not record iteration 0 and no snapshot is saved. -/
theorem checkpoint_skipped_counterexample :
    (runIteration c8cfg id id ["g"] 0 initState c8input).status ≠
      IterStatus.terminated ∧
    (runIteration c8cfg id id ["g"] 0 initState c8input).state.model_info = none ∧
    (runIteration c8cfg id id ["g"] 0 initState c8input).state.agentSavedAt = none ∧
    (runIteration c8cfg id id ["g"] 0 initState c8input).state.model_info ≠ some 0 := by
  refine ⟨by decide, by decide, by decide, by decide⟩

/-- C8 (amended): at the end of every iteration that reaches the
checkpoint (status completed — in particular not a zero-success skipped
iteration), the policy snapshot and the iteration index metadata are
persisted, and resuming restarts at the persisted iteration plus one, so
a checkpointed iteration is never re-run. -/
theorem checkpoint_completed_and_resume (cfg : Config)
    (contract elaborate : String → String) (fg : List String) (i : ℕ)
    (st : LoopState) (input : IterInput)
    (hc : (runIteration cfg contract elaborate fg i st input).status =
      IterStatus.completed) :
    (runIteration cfg contract elaborate fg i st input).state.model_info = some i ∧
    (runIteration cfg contract elaborate fg i st input).state.agentSavedAt = some i ∧
    resumeStartIteration true
      ((runIteration cfg contract elaborate fg i st input).state.model_info) =
      some (i + 1) ∧
    ∀ k : ℕ, resumeStartIteration true (some k) = some (k + 1) ∧ k < k + 1 := by
  unfold runIteration at hc ⊢
  dsimp only at hc ⊢
  split at hc
  · simp at hc
  · split at hc
    · simp at hc
    · rename_i hcond1 hcond2
      rw [if_neg hcond1, if_neg hcond2]
      exact ⟨rfl, rfl, rfl, fun k => ⟨rfl, Nat.lt_succ_self k⟩⟩

/-- Oracle inputs of a completed C8 iteration: one unproven final goal,
one sampled conjecture supplied by the proposal stream, and its single
successful batch result. -/
def c8okInput : IterInput :=
  ⟨[⟨"g", false, 0, "", [], [], ""⟩], [], ["c1"], [⟨"c1", true, -2, "p", [], [], ""⟩]⟩

/-- Witness for the amended C8 on a completed iteration. -/
theorem checkpoint_completed_and_resume_witness :
    (runIteration c8cfg id id ["g"] 0 initState c8okInput).state.model_info = some 0 :=
  (checkpoint_completed_and_resume c8cfg id id ["g"] 0 initState c8okInput (by decide)).1

/-- Concrete run used for claim C9: two buckets at the 50th and 90th
percentile, three batch successes at logprobs -10, -5 and -1.
n_conjectures is 3, matching the three sampled conjectures and the three
batch results. -/
def c9cfg : Config := ⟨[("easy", 50), ("hard", 90)], 3, false, false, 10⟩

/-- Oracle inputs of the C9 run: one raw result for the single final goal,
one for the single validation goal (the validation set is the final goal),
the proposal stream supplies the three conjectures c1, c2, c3 that the
sampler accepts, and batchRaw holds one worker result per sampled
conjecture, in submission order. -/
def c9input : IterInput :=
  ⟨[⟨"g", false, 0, "", [], [], ""⟩], [⟨"g", false, 0, "", [], [], ""⟩],
   ["c1", "c2", "c3"],
   [⟨"c1", true, -10, "p", [], [], ""⟩, ⟨"c2", true, -5, "p", [], [], ""⟩,
    ⟨"c3", true, -1, "p", [], [], ""⟩]⟩

/-- Counterexample to C9: the reported metric is the mean of the
successful logprobs at or above the first threshold (here -5 and -1, mean
-3), while the mean over the results the classification rule assigns to
the last bucket is -1 (only -1 lands in the hard bucket; -5 equals the
first threshold and classifies easy). -/
theorem hard_tier_metric_counterexample :
    (runIteration c9cfg id id ["g"] 0 initState c9input).thresholdsUsed =
      some [-5, -9/5] ∧
    (runIteration c9cfg id id ["g"] 0 initState c9input).meanHardSolLogProb =
      some (-3) ∧
    lastBucketLogprobs (sortBuckets c9cfg.difficulty_buckets) [-5, -9/5]
      (prove_conjectures c9input.batchRaw ++ prove_conjectures c9input.finalRaw) =
      [-1] ∧
    (runIteration c9cfg id id ["g"] 0 initState c9input).meanHardSolLogProb ≠
      some (mean (lastBucketLogprobs (sortBuckets c9cfg.difficulty_buckets) [-5, -9/5]
        (prove_conjectures c9input.batchRaw ++ prove_conjectures c9input.finalRaw))) := by
  have h1 : (runIteration c9cfg id id ["g"] 0 initState c9input).thresholdsUsed =
      some [-5, -9/5] := by
    norm_num [runIteration, c9cfg, c9input, initState, prove_conjectures, get_log_probs,
      percentile, sortBuckets, List.insertionSort, List.orderedInsert, List.cons_ne_nil]
  have h2 : (runIteration c9cfg id id ["g"] 0 initState c9input).meanHardSolLogProb =
      some (-3) := by
    norm_num [runIteration, c9cfg, c9input, initState, prove_conjectures, get_log_probs,
      percentile, sortBuckets, mean, List.insertionSort, List.orderedInsert,
      List.cons_ne_nil]
  have h3 : lastBucketLogprobs (sortBuckets c9cfg.difficulty_buckets) [-5, -9/5]
      (prove_conjectures c9input.batchRaw ++ prove_conjectures c9input.finalRaw) =
      [-1] := by
    have hlbl : ("easy" : String) ≠ "hard" := by decide
    norm_num [lastBucketLogprobs, c9cfg, c9input, prove_conjectures, get_log_probs,
      sortBuckets, classifyFrom, List.insertionSort, List.orderedInsert,
      List.filter_cons, List.filter_nil, Bool.and_eq_true, beq_iff_eq, hlbl]
  refine ⟨h1, h2, h3, ?_⟩
  rw [h2, h3]
  norm_num [mean]

/-- C9 (amended): the reported mean log-likelihood of the hardest tier is
the mean of exactly those successful sampled-batch logprobs that are at or
above the first (lowest-percentile) threshold, or 0 when that set is
empty; it is not the mean over the last-bucket classification. -/
theorem hard_tier_metric_formula (cfg : Config) (contract elaborate : String → String)
    (fg : List String) (i : ℕ) (st : LoopState) (input : IterInput)
    (hterm : (get_log_probs (prove_conjectures input.finalRaw)).length ≠ fg.length)
    (hsucc : get_log_probs (prove_conjectures input.batchRaw) ≠ []) :
    (runIteration cfg contract elaborate fg i st input).meanHardSolLogProb =
      some (if ((get_log_probs (prove_conjectures input.batchRaw)).filter
          (fun lp => (((sortBuckets cfg.difficulty_buckets).map
            (fun kv => percentile (get_log_probs (prove_conjectures input.batchRaw))
              kv.2)).headD 0) ≤ lp)) ≠ [] then
        mean ((get_log_probs (prove_conjectures input.batchRaw)).filter
          (fun lp => (((sortBuckets cfg.difficulty_buckets).map
            (fun kv => percentile (get_log_probs (prove_conjectures input.batchRaw))
              kv.2)).headD 0) ≤ lp))
      else 0) := by
  have hterm' : ¬((get_log_probs (prove_conjectures input.finalRaw)).length =
      (fg.map (fun g => "Conj:(hard) " ++ g)).length) := by
    rw [List.length_map]
    exact hterm
  unfold runIteration
  dsimp only
  rw [if_neg hterm', if_neg hsucc]

/-- Witness for the amended C9 on the concrete C9 run. -/
theorem hard_tier_metric_formula_witness :
    (runIteration c9cfg id id ["g"] 0 initState c9input).meanHardSolLogProb =
      some (if ((get_log_probs (prove_conjectures c9input.batchRaw)).filter
          (fun lp => (((sortBuckets c9cfg.difficulty_buckets).map
            (fun kv => percentile (get_log_probs (prove_conjectures c9input.batchRaw))
              kv.2)).headD 0) ≤ lp)) ≠ [] then
        mean ((get_log_probs (prove_conjectures c9input.batchRaw)).filter
          (fun lp => (((sortBuckets c9cfg.difficulty_buckets).map
            (fun kv => percentile (get_log_probs (prove_conjectures c9input.batchRaw))
              kv.2)).headD 0) ≤ lp))
      else 0) :=
  hard_tier_metric_formula c9cfg id id ["g"] 0 initState c9input (by decide) (by decide)

/-- C10: with hindsight training enabled and the conjecturer not frozen,
the tagged difficulty example emitted for an unseen hindsight example h
pairs the label classified from the logprob of h with the elaboration of
the problem of the enclosing result — the goal string of h is never the
statement of the tagged example. -/
theorem hindsight_tag_uses_problem (cfg : Config) (elaborate : String → String)
    (buckets : List (String × ℚ)) (ths : List ℚ) (acc : CurationAcc)
    (r : StudentResult) (h : HindsightExample)
    (hfrz : cfg.freeze_conjecturer = false)
    (hhs : cfg.train_policy_on_hindsight_examples = true)
    (hone : r.hindsight_examples = [h])
    (hseen : h.goal ∉ acc.seen_hindsight_goals) :
    (curateResult cfg elaborate buckets ths acc r).examples =
      acc.examples ++
      [TrainingExample.tag
        ("Conj:(" ++ resultOutcome buckets ths r ++ ") " ++ elaborate r.problem)] ++
      r.extracted_examples.map TrainingExample.extracted ++
      [TrainingExample.tag
        ("Conj:(" ++ (classifyFrom buckets ths h.logprob).getD "" ++ ") " ++
          elaborate r.problem)] ++
      h.examples := by
  by_cases hs : r.success <;>
    simp [curateResult, hindsightStep, hfrz, hhs, hone, hseen, hs, List.append_assoc]

/-- Concrete data for the C10 witness. -/
def c10h : HindsightExample := ⟨"subgoal", -6, [TrainingExample.payload "x"]⟩

/-- The enclosing failed result carrying the C10 hindsight example. -/
def c10r : StudentResult := ⟨"prob", false, 0, "", [⟨"e"⟩], [c10h], ""⟩

/-- Witness for C10 at a concrete unseen hindsight example. -/
theorem hindsight_tag_uses_problem_witness :
    (curateResult ⟨[("easy", 50)], 1, false, true, 5⟩ id [("easy", 50)] [-4]
        ⟨[], [], [], [], []⟩ c10r).examples =
      ([] : List TrainingExample) ++
      [TrainingExample.tag
        ("Conj:(" ++ resultOutcome [("easy", 50)] [-4] c10r ++ ") " ++ id c10r.problem)] ++
      c10r.extracted_examples.map TrainingExample.extracted ++
      [TrainingExample.tag
        ("Conj:(" ++ (classifyFrom [("easy", 50)] [-4] c10h.logprob).getD "" ++ ") " ++
          id c10r.problem)] ++
      c10h.examples :=
  hindsight_tag_uses_problem ⟨[("easy", 50)], 1, false, true, 5⟩ id [("easy", 50)] [-4]
    ⟨[], [], [], [], []⟩ c10r c10h rfl rfl rfl (by decide)

end GcMinimo
